import Mathlib

set_option autoImplicit false

/-!
Shallow embedding of the mcp-pytest client library (src/mcp_pytest), covering
the tool caller (`client/tool_caller.py`), the assertion classes
(`assertions/base.py`, `assertions/tool_result.py`), the client session
(`client/session.py`) and the multi-server manager (`client/manager.py`).
Wall-clock time is abstracted to an input (the measured duration), the MCP
session transport is abstracted to the response it delivers (a protocol
result, a timeout, or another raised exception), and Python dictionaries are
modelled as insertion-ordered association lists, which is their observable
iteration behaviour.
-/

/-- A content block of an MCP protocol result (`mcp.types`): a `TextContent`
block, a non-`TextContent` block that still has a `text` attribute, or a
block with no `text` attribute (e.g. image data). -/
inductive Content where
  | text (s : String)
  | attrText (s : String)
  | blob
deriving DecidableEq

/-- The text carried by a content block, if any: both `TextContent` blocks and
other blocks with a `text` attribute are text-bearing. -/
def Content.textOf : Content → Option String
  | .text s => some s
  | .attrText s => some s
  | .blob => none

/-- `mcp.types.CallToolResult`: a list of content blocks plus the protocol
`isError` flag. -/
structure CallToolResult where
  content : List Content
  isError : Bool
deriving DecidableEq

/-- The `texts` accumulation loop of `ToolCallResult.text_content`
(tool_caller.py lines 43-49): collect the text of every text-bearing block,
in block order, skipping blocks with no text. -/
def collectTexts : List Content → List String
  | [] => []
  | .text s :: rest => s :: collectTexts rest
  | .attrText s :: rest => s :: collectTexts rest
  | .blob :: rest => collectTexts rest

/-- The scan loop of `ToolCaller._extract_error_message` (tool_caller.py
lines 279-283): the text of the first text-bearing block, if any. -/
def firstText : List Content → Option String
  | [] => none
  | .text s :: _ => some s
  | .attrText s :: _ => some s
  | .blob :: rest => firstText rest

/-- `ToolCallResult` dataclass (tool_caller.py lines 17-60). `arguments` is a
`Dict[str, Any]`, modelled as an association list; `duration_seconds` is the
measured duration, abstracted to a number; `cached_text` is the private
`_text_content` memo field, `None` on construction. -/
structure ToolCallResult where
  name : String
  arguments : List (String × String)
  result : CallToolResult
  duration_seconds : Nat
  success : Bool
  error_message : Option String := none
  cached_text : Option String := none
deriving DecidableEq

/-- `ToolCallResult.text_content` property (tool_caller.py lines 29-51):
return the memo if set; otherwise the empty string when the content list is
falsy (empty), else the newline-join of the collected texts. -/
def ToolCallResult.text_content (r : ToolCallResult) : String :=
  match r.cached_text with
  | some t => t
  | none =>
    if r.result.content.isEmpty then ""
    else String.intercalate "\n" (collectTexts r.result.content)

/-- `ToolCallResult.is_error` property (tool_caller.py lines 53-56): the
protocol result always has an `isError` attribute, so the `hasattr` guard is
always true and the value is the flag itself. -/
def ToolCallResult.is_error (r : ToolCallResult) : Bool :=
  r.result.isError

/-- `ToolCaller._extract_error_message` (tool_caller.py lines 273-285):
"Unknown error" for an empty content list, otherwise the first text-bearing
block's text, falling through to "Unknown error" when no block is
text-bearing. -/
def ToolCaller.extract_error_message (result : CallToolResult) : String :=
  if result.content.isEmpty then "Unknown error"
  else (firstText result.content).getD "Unknown error"

/-- What the underlying `MCPClientSession.call_tool` await delivers to
`ToolCaller.call`: a protocol result, a `TimeoutError` with its `str(e)`
text, or another exception (an `Exception`, the class the handler at
tool_caller.py line 155 catches) with its `str(e)` text. -/
inductive SessionResponse where
  | ok (result : CallToolResult)
  | timeout (msg : String)
  | raised (msg : String)
deriving DecidableEq

/-- `ToolCaller.call` (tool_caller.py lines 104-171). The caller state is its
`_call_history` list; `duration` is the elapsed time measured by the
`perf_counter` pair. Returns the constructed `ToolCallResult` and the new
history, with the outcome appended at the end. -/
def ToolCaller.call (history : List ToolCallResult) (tool_name : String)
    (arguments : List (String × String)) (duration : Nat) (expect_error : Bool)
    (resp : SessionResponse) : ToolCallResult × List ToolCallResult :=
  let rse : CallToolResult × Bool × Option String :=
    match resp with
    | .ok result =>
      let is_error := result.isError
      if expect_error then
        (result, is_error,
          if is_error then none else some "Expected error but tool succeeded")
      else
        (result, !is_error,
          if is_error then some (ToolCaller.extract_error_message result) else none)
    | .timeout m => (⟨[], true⟩, expect_error, some m)
    | .raised m => (⟨[], true⟩, expect_error, some ("Tool call failed: " ++ m))
  let call_result : ToolCallResult :=
    { name := tool_name, arguments := arguments, result := rse.1,
      duration_seconds := duration, success := rse.2.1, error_message := rse.2.2 }
  (call_result, history ++ [call_result])

/-- One call in a sequence of `ToolCaller.call` invocations: the arguments of
the call together with the session behaviour observed during it. -/
structure CallSpec where
  tool_name : String
  arguments : List (String × String)
  duration : Nat
  expect_error : Bool
  resp : SessionResponse
deriving DecidableEq

/-- A sequence of `ToolCaller.call` invocations threaded through the call
history state. -/
def ToolCaller.runCalls (history : List ToolCallResult) :
    List CallSpec → List ToolCallResult
  | [] => history
  | c :: cs =>
    ToolCaller.runCalls
      (ToolCaller.call history c.tool_name c.arguments c.duration
        c.expect_error c.resp).2 cs

/-- `ToolCaller.clear_history` (tool_caller.py lines 261-263): empties the
history. -/
def ToolCaller.clear_history (_ : List ToolCallResult) : List ToolCallResult :=
  []

/-- `ToolCaller.get_calls_for_tool` (tool_caller.py lines 269-271): read-only
filter of the history. -/
def ToolCaller.get_calls_for_tool (history : List ToolCallResult)
    (tool_name : String) : List ToolCallResult :=
  history.filter (fun c => c.name == tool_name)

/-- `AssertionResult` dataclass (assertions/base.py lines 13-37). The
`expected`, `actual` and `details` payloads default to `None`. -/
structure AssertionResult where
  passed : Bool
  message : String
  expected : Option String := none
  actual : Option String := none
  details : Option String := none
deriving DecidableEq

/-- A `BaseAssertion` (assertions/base.py lines 40-69): its `description`
property together with its `check` method. -/
structure BaseAssertion where
  description : String
  check : ToolCallResult → AssertionResult

/-- The failed-assertion accumulation loop of `ToolCaller.call_and_assert`
(tool_caller.py lines 198-205): one formatted line per failing assertion, in
list order. -/
def assertionFailureLines (assertions : List BaseAssertion)
    (result : ToolCallResult) : List String :=
  assertions.filterMap (fun a =>
    let r := a.check result
    if r.passed then none
    else some ("- " ++ a.description ++ ": " ++ r.message))

/-- `ToolCaller.call_and_assert` (tool_caller.py lines 173-213): perform the
call (with `expect_error` left at its `False` default), then, when an
assertion list was passed, collect every failing assertion and raise a single
aggregated `AssertionError` if any failed; otherwise return the outcome. The
raise is modelled as the `Except.error` branch carrying the exception text. -/
def ToolCaller.call_and_assert (history : List ToolCallResult)
    (tool_name : String) (arguments : List (String × String)) (duration : Nat)
    (assertions : Option (List BaseAssertion)) (resp : SessionResponse) :
    Except String ToolCallResult × List ToolCallResult :=
  let call_out := ToolCaller.call history tool_name arguments duration false resp
  let verdict : Except String ToolCallResult :=
    match assertions with
    | none => .ok call_out.1
    | some as =>
      let failed_assertions := assertionFailureLines as call_out.1
      if failed_assertions.isEmpty then .ok call_out.1
      else
        .error ("Tool call \x27" ++ tool_name ++ "\x27 failed assertions:\n"
          ++ String.intercalate "\n" failed_assertions)
  (verdict, call_out.2)

/-- `CompositeAssertion.check` (assertions/base.py lines 102-125), for a
composite built from `assertions` with the given operator string (the
constructor admits only "and" and "or"). -/
def CompositeAssertion.check (assertions : List BaseAssertion)
    (operator : String) (result : ToolCallResult) : AssertionResult :=
  let results := assertions.map (fun a => a.check result)
  if operator == "and" then
    let passed := results.all (fun r => r.passed)
    let failed := results.filter (fun r => !r.passed)
    if passed then
      { passed := true,
        message := "All " ++ toString assertions.length ++ " assertions passed" }
    else
      { passed := false,
        message := toString failed.length ++ " assertion(s) failed:\n"
          ++ String.intercalate "\n" (failed.map (fun r => "- " ++ r.message)) }
  else
    let passed := results.any (fun r => r.passed)
    if passed then
      let passed_results := results.filter (fun r => r.passed)
      { passed := true,
        message := toString passed_results.length ++ " of "
          ++ toString assertions.length ++ " assertions passed" }
    else
      { passed := false,
        message := "None of " ++ toString assertions.length
          ++ " assertions passed:\n"
          ++ String.intercalate "\n" (results.map (fun r => "- " ++ r.message)) }

/-- `SuccessAssertion` (assertions/tool_result.py lines 14-28), with its
description property and check method. -/
def SuccessAssertion : BaseAssertion :=
  { description := "Tool call succeeds",
    check := fun result =>
      { passed := result.success,
        message := "Tool call should succeed",
        expected := some "success=True",
        actual := some ("success=" ++ (if result.success then "True" else "False")),
        details := if !result.success then result.error_message else none } }

/-- Python truthiness of an optional string: `None` and the empty string are
falsy, every other string is truthy. -/
def pyTruthy : Option String → Bool
  | none => false
  | some s => !(s == "")

/-- `ErrorAssertion.check` (assertions/tool_result.py lines 41-77),
parameterised over the regex engine: `search flag pattern text` stands for
`re.compile(pattern, re.IGNORECASE if flag else 0).search(text)` being a
match. The constructor compiles a pattern only when `error_pattern` is
truthy, and always with `re.IGNORECASE`; the pattern branch of `check` runs
only when both the compiled pattern and the outcome's `error_message` are
truthy. -/
def ErrorAssertion.checkWith (search : Bool → String → String → Bool)
    (error_pattern : Option String) (result : ToolCallResult) :
    AssertionResult :=
  if result.success then
    { passed := false,
      message := "Tool call should fail",
      expected := some "success=False (error)",
      actual := some "success=True" }
  else if pyTruthy error_pattern && pyTruthy result.error_message then
    if !(search true (error_pattern.getD "") (result.error_message.getD "")) then
      { passed := false,
        message := "Error message should match pattern: "
          ++ error_pattern.getD "",
        expected := error_pattern,
        actual := result.error_message }
    else
      { passed := true, message := "Tool call failed as expected" }
  else
    { passed := true, message := "Tool call failed as expected" }

/-- List-of-characters membership of one string in another: `beginsWith n h`
holds when `n` is an initial segment of `h`. -/
def beginsWith : List Char → List Char → Bool
  | [], _ => true
  | _ :: _, [] => false
  | a :: as, b :: bs => a == b && beginsWith as bs

/-- `charsContain needle hay`: the needle occurs contiguously in the hay. -/
def charsContain (needle : List Char) : List Char → Bool
  | [] => needle.isEmpty
  | c :: t => beginsWith needle (c :: t) || charsContain needle t

/-- Substring test on strings, used to state what a failure message does or
does not list. -/
def strContains (hay needle : String) : Bool :=
  charsContain needle.data hay.data

/-- The resource-holding state of an `MCPClientSession` (session.py lines
22-50): the optional underlying `ClientSession` and the optional
`AsyncExitStack`. The stream fields follow the exit stack and carry no
independent state of their own. -/
structure MCPClientSession where
  session : Option Unit
  exit_stack : Option Unit
deriving DecidableEq

/-- `MCPClientSession.is_connected` (session.py lines 57-60): the session
attribute is not `None`. -/
def MCPClientSession.is_connected (s : MCPClientSession) : Bool :=
  s.session.isSome

/-- `MCPClientSession._cleanup` (session.py lines 142-152): close the exit
stack (errors during the close are caught and logged) and null every
resource field. -/
def MCPClientSession.cleanup (_ : MCPClientSession) : MCPClientSession :=
  { session := none, exit_stack := none }

/-- How the timed shutdown inside `disconnect` behaves: the cleanup finishes
within `shutdown_timeout`, or `asyncio.TimeoutError` fires first. -/
inductive ShutdownOutcome where
  | normal
  | timedOut
deriving DecidableEq

/-- `MCPClientSession.disconnect` (session.py lines 123-140): a no-op when
not connected; otherwise run `_cleanup` under the shutdown deadline, and on a
timeout force `_cleanup` from the handler. Both paths end in the cleaned-up
state. -/
def MCPClientSession.disconnect (s : MCPClientSession) (o : ShutdownOutcome) :
    MCPClientSession :=
  if !s.is_connected then s
  else
    match o with
    | .normal => s.cleanup
    | .timedOut => s.cleanup

/-- A session as the manager sees it: its `is_connected` observation. -/
structure ManagedSession where
  connected : Bool
deriving DecidableEq

/-- The manager's `_sessions` dict (manager.py line 40), as an
insertion-ordered association list from server name to session. -/
abbrev ManagerSessions := List (String × ManagedSession)

/-- `MCPServerManager.connected_servers` property (manager.py lines 48-51):
names whose registered session is connected, in insertion order. -/
def connected_servers (sessions : ManagerSessions) : List String :=
  (sessions.filter (fun p => p.2.connected)).map (fun p => p.1)

/-- Python dict assignment `self._sessions[name] = session`: replace the
value at an existing key, else append the new pair at the end. -/
def setSession : ManagerSessions → String → ManagedSession → ManagerSessions
  | [], name, s => [(name, s)]
  | (k, v) :: rest, name, s =>
    if k == name then (k, s) :: rest
    else (k, v) :: setSession rest name s

/-- The early-return guard of `start_server` (manager.py line 73): the name
is registered and its session is connected. -/
def alreadyConnected (sessions : ManagerSessions) (name : String) : Bool :=
  match List.lookup name sessions with
  | some s => s.connected
  | none => false

/-- `MCPServerManager.start_server` (manager.py lines 53-91) for a name drawn
from the configuration (the `ValueError` branch for unknown names cannot fire
from `start_all_servers`, whose names come from the same configuration).
`outcome` is what `session.connect()` does: succeed, or raise with the given
text. On success the fresh connected session is registered; a raised
connection error leaves the dict untouched. -/
def startServer (sessions : ManagerSessions) (name : String)
    (outcome : Except String Unit) : Except String ManagerSessions :=
  if alreadyConnected sessions name then .ok sessions
  else
    match outcome with
    | .ok _ => .ok (setSession sessions name { connected := true })
    | .error e => .error e

/-- The `asyncio.gather(*tasks, return_exceptions=True)` phase of
`_start_servers_parallel` followed by the error-collection loop (manager.py
lines 132-140): every start runs to completion, each failure is recorded as a
`(name, error)` pair in configuration order, and successes register their
sessions. The event loop interleaves the coroutines, but each `start_server`
touches only its own server's dict entry under its own lock, so the
interleaving is equivalent to processing the list in order. -/
def gatherStart (sessions : ManagerSessions) :
    List (String × Except String Unit) →
    ManagerSessions × List (String × String)
  | [] => (sessions, [])
  | (name, outcome) :: rest =>
    match startServer sessions name outcome with
    | .ok updated => gatherStart updated rest
    | .error e =>
      let r := gatherStart sessions rest
      (r.1, (name, e) :: r.2)

/-- `MCPServerManager.stop_server` (manager.py lines 152-167): disconnect the
registered session if connected, then delete the entry. The surviving state
is the dict without that name. -/
def stopServer (sessions : ManagerSessions) (name : String) : ManagerSessions :=
  sessions.filter (fun p => !(p.1 == name))

/-- `MCPServerManager.stop_all_servers` (manager.py lines 169-177): stop
every currently registered name in order; `stop_server` cannot raise here
because `disconnect` is total, so no entry survives. -/
def stopAllServers (sessions : ManagerSessions) : ManagerSessions :=
  (sessions.map (fun p => p.1)).foldl stopServer sessions

/-- `MCPServerManager._start_servers_parallel` (manager.py lines 128-150):
gather all starts; when any failed, roll back by stopping every registered
server and raise a single `ConnectionError` whose text has one line per
failed server; otherwise return the sessions. The pair carries the returned
or raised value together with the manager's final `_sessions` state. -/
def startServersParallel (sessions : ManagerSessions)
    (jobs : List (String × Except String Unit)) :
    Except String ManagerSessions × ManagerSessions :=
  let g := gatherStart sessions jobs
  if g.2.isEmpty then (.ok g.1, g.1)
  else
    let cleaned := stopAllServers g.1
    (.error ("Failed to start " ++ toString g.2.length ++ " server(s):\n"
      ++ String.intercalate "\n" (g.2.map (fun p => p.1 ++ ": " ++ p.2))),
     cleaned)

/-- `MCPServerManager._start_servers_sequential` (manager.py lines 120-126):
start servers one by one; the first raised connection error propagates. -/
def startServersSequential (sessions : ManagerSessions) :
    List (String × Except String Unit) →
    Except String ManagerSessions × ManagerSessions
  | [] => (.ok sessions, sessions)
  | (name, outcome) :: rest =>
    match startServer sessions name outcome with
    | .ok updated => startServersSequential updated rest
    | .error e => (.error e, sessions)

/-- `MCPServerManager.start_all_servers` (manager.py lines 93-118): an empty
configuration returns an empty dict; otherwise dispatch on `parallel`. -/
def startAllServers (sessions : ManagerSessions)
    (jobs : List (String × Except String Unit)) (parallel : Bool) :
    Except String ManagerSessions × ManagerSessions :=
  if jobs.isEmpty then (.ok [], sessions)
  else if parallel then startServersParallel sessions jobs
  else startServersSequential sessions jobs

/-- A failed tool-call outcome fixture: the shape `ToolCaller.call` records
for a protocol-level error result. -/
def sampleFailedOutcome : ToolCallResult :=
  { name := "sample", arguments := [], result := { content := [], isError := true },
    duration_seconds := 0, success := false, error_message := some "boom" }

/-- The text accumulation loop collects exactly the text-bearing blocks, in
order. -/
theorem collectTexts_eq_filterMap (l : List Content) :
    collectTexts l = l.filterMap Content.textOf := by
  induction l with
  | nil => rfl
  | cons c t ih =>
    cases c <;> simp [collectTexts, Content.textOf, ih, List.filterMap_cons]

/-- The error-message scan returns the head of the text-bearing blocks. -/
theorem firstText_eq_head (l : List Content) :
    firstText l = (l.filterMap Content.textOf).head? := by
  induction l with
  | nil => rfl
  | cons c t ih =>
    cases c <;> simp [firstText, Content.textOf, ih, List.filterMap_cons]

/-- The recorded outcome of a call does not depend on the history it is
appended to. -/
theorem call_snd (history : List ToolCallResult) (n : String)
    (args : List (String × String)) (d : Nat) (e : Bool) (r : SessionResponse) :
    (ToolCaller.call history n args d e r).2
      = history ++ [(ToolCaller.call [] n args d e r).1] := rfl

/-- Running a sequence of calls appends one outcome per call, in call
order. -/
theorem runCalls_spec (history : List ToolCallResult) (cs : List CallSpec) :
    ToolCaller.runCalls history cs
      = history ++ cs.map (fun c =>
          (ToolCaller.call [] c.tool_name c.arguments c.duration
            c.expect_error c.resp).1) := by
  induction cs generalizing history with
  | nil => simp [ToolCaller.runCalls]
  | cons c cs ih =>
    simp only [ToolCaller.runCalls, List.map_cons]
    rw [ih, call_snd]
    simp

/-- Claim C8: the extracted text content of an outcome is the newline-joined
concatenation of the texts of all text-bearing content blocks in block
order, the empty string when there are no content blocks, and in particular
two text blocks "Echo: " and "Hello, MCP!" yield exactly
"Echo: \n" followed by "Hello, MCP!". -/
theorem C8_text_extraction :
    (∀ (res : CallToolResult) (n : String) (args : List (String × String))
       (d : Nat) (su : Bool) (em : Option String),
       (ToolCallResult.mk n args res d su em none).text_content
         = String.intercalate "\n" (res.content.filterMap Content.textOf))
    ∧ (∀ (n : String) (args : List (String × String)) (d : Nat) (su : Bool)
        (em : Option String) (ie : Bool),
       (ToolCallResult.mk n args (CallToolResult.mk [] ie) d su em
         none).text_content = "")
    ∧ (ToolCallResult.mk "echo" []
        (CallToolResult.mk [Content.text "Echo: ", Content.text "Hello, MCP!"]
          false) 0 true none none).text_content = "Echo: \nHello, MCP!" := by
  refine ⟨?_, ?_, rfl⟩
  · intro res n args d su em
    cases res with
    | mk content ie =>
      cases content with
      | nil => rfl
      | cons c t =>
        simp [ToolCallResult.text_content, collectTexts_eq_filterMap]
  · intro n args d su em ie
    rfl

/-- Claim C10: a call whose session raised (timeout or any other exception)
records an outcome whose synthesized result has the error flag set and an
empty content list, so `is_error` is true and `text_content` is the empty
string. -/
theorem C10_raised_calls_record_error_result :
    ∀ (history : List ToolCallResult) (n : String)
      (args : List (String × String)) (d : Nat) (ee : Bool) (m : String),
      ((ToolCaller.call history n args d ee (.timeout m)).1.is_error = true
        ∧ (ToolCaller.call history n args d ee (.timeout m)).1.text_content = "")
      ∧ ((ToolCaller.call history n args d ee (.raised m)).1.is_error = true
        ∧ (ToolCaller.call history n args d ee (.raised m)).1.text_content
            = "") := by
  intro history n args d ee m
  exact ⟨⟨rfl, rfl⟩, ⟨rfl, rfl⟩⟩

/-- Claim C1: when the underlying session call raises a timeout or any other
exception, `ToolCaller.call` does not propagate it: the returned outcome's
success flag equals the `expect_error` argument, its error message is the
timeout text (for timeouts) or the wrapped exception text (for other
exceptions), and the outcome is appended to the call history before
returning. -/
theorem C1_call_catches_exceptions :
    ∀ (history : List ToolCallResult) (n : String)
      (args : List (String × String)) (d : Nat) (ee : Bool) (m : String),
      ((ToolCaller.call history n args d ee (.timeout m)).1.success = ee
        ∧ (ToolCaller.call history n args d ee (.timeout m)).1.error_message
            = some m
        ∧ (ToolCaller.call history n args d ee (.timeout m)).2
            = history ++ [(ToolCaller.call history n args d ee (.timeout m)).1])
      ∧ ((ToolCaller.call history n args d ee (.raised m)).1.success = ee
        ∧ (ToolCaller.call history n args d ee (.raised m)).1.error_message
            = some ("Tool call failed: " ++ m)
        ∧ (ToolCaller.call history n args d ee (.raised m)).2
            = history
              ++ [(ToolCaller.call history n args d ee (.raised m)).1]) := by
  intro history n args d ee m
  exact ⟨⟨rfl, rfl, rfl⟩, ⟨rfl, rfl, rfl⟩⟩

/-- Claim C3: for a completed (non-raising) call, `expect_error = true` gives
`success = isError` with message "Expected error but tool succeeded" exactly
when the tool succeeded, `expect_error = false` gives `success = not isError`
with the extracted message exactly when the tool errored, and the extracted
message is the first text-bearing block's text, or "Unknown error" when
there is none. -/
theorem C3_expect_error_inversion :
    ∀ (history : List ToolCallResult) (n : String)
      (args : List (String × String)) (d : Nat) (res : CallToolResult),
      ((ToolCaller.call history n args d true (.ok res)).1.success = res.isError
        ∧ (ToolCaller.call history n args d true (.ok res)).1.error_message
            = (if res.isError then none
               else some "Expected error but tool succeeded"))
      ∧ ((ToolCaller.call history n args d false (.ok res)).1.success
            = !res.isError
        ∧ (ToolCaller.call history n args d false (.ok res)).1.error_message
            = (if res.isError then some (ToolCaller.extract_error_message res)
               else none))
      ∧ ToolCaller.extract_error_message res
          = ((res.content.filterMap Content.textOf).head?).getD
              "Unknown error" := by
  intro history n args d res
  refine ⟨⟨rfl, rfl⟩, ⟨rfl, rfl⟩, ?_⟩
  cases res with
  | mk content ie =>
    cases content with
    | nil => rfl
    | cons c t => simp [ToolCaller.extract_error_message, firstText_eq_head]

/-- Claim C4: a sequence of N calls on one caller leaves a history of length
N whose i-th entry's name is the i-th call's tool name (stated as equality of
the name lists), and `clear_history` is the operation that empties it. -/
theorem C4_history_ordering :
    ∀ cs : List CallSpec,
      (ToolCaller.runCalls [] cs).length = cs.length
      ∧ (ToolCaller.runCalls [] cs).map (fun r => r.name)
          = cs.map (fun c => c.tool_name)
      ∧ ToolCaller.clear_history (ToolCaller.runCalls [] cs) = [] := by
  intro cs
  refine ⟨?_, ?_, rfl⟩
  · rw [runCalls_spec]; simp
  · rw [runCalls_spec]
    simp only [List.nil_append, List.map_map]
    rfl

/-- The aggregation loop of `call_and_assert` keeps, in order, one line per
failing assertion, formed from its description and its result message. -/
theorem assertionFailureLines_eq (as : List BaseAssertion)
    (out : ToolCallResult) :
    assertionFailureLines as out
      = (as.filter (fun a => !(a.check out).passed)).map
          (fun a => "- " ++ a.description ++ ": " ++ (a.check out).message) := by
  induction as with
  | nil => rfl
  | cons a t ih =>
    cases h : (a.check out).passed <;>
      simp [assertionFailureLines, List.filterMap_cons, List.filter_cons, h,
        ih, assertionFailureLines] <;>
      simpa [assertionFailureLines] using ih

/-- No failure line is produced exactly when every assertion in the list
passes against the outcome. -/
theorem assertionFailureLines_nil_iff (as : List BaseAssertion)
    (out : ToolCallResult) :
    assertionFailureLines as out = [] ↔
      ∀ a ∈ as, (a.check out).passed = true := by
  induction as with
  | nil => simp [assertionFailureLines]
  | cons a t ih =>
    cases h : (a.check out).passed with
    | true =>
      have hstep : assertionFailureLines (a :: t) out
          = assertionFailureLines t out := by
        simp [assertionFailureLines, List.filterMap_cons, h]
      rw [hstep, ih]
      constructor
      · intro hall b hb
        rcases List.mem_cons.mp hb with rfl | hb2
        · exact h
        · exact hall b hb2
      · intro hall b hb
        exact hall b (List.mem_cons_of_mem _ hb)
    | false =>
      have hne : assertionFailureLines (a :: t) out ≠ [] := by
        simp [assertionFailureLines, List.filterMap_cons, h]
      constructor
      · intro hnil
        exact absurd hnil hne
      · intro hall
        have hpass := hall a (List.mem_cons_self _ _)
        rw [h] at hpass
        exact absurd hpass Bool.false_ne_true

/-- Claim C5: `call_and_assert` evaluates every assertion against the
outcome, raises a single aggregated error exactly when at least one fails,
with one line per failed assertion giving its description and message, and
otherwise returns the outcome unchanged; either way the outcome lands in the
history. -/
theorem C5_call_and_assert_aggregates :
    ∀ (history : List ToolCallResult) (n : String)
      (args : List (String × String)) (d : Nat)
      (as : List BaseAssertion) (resp : SessionResponse),
      ((ToolCaller.call_and_assert history n args d (some as) resp).1
          = Except.ok (ToolCaller.call history n args d false resp).1
        ↔ ∀ a ∈ as,
            (a.check (ToolCaller.call history n args d false resp).1).passed
              = true)
      ∧ ((∃ a ∈ as,
            (a.check (ToolCaller.call history n args d false resp).1).passed
              = false) →
          (ToolCaller.call_and_assert history n args d (some as) resp).1
            = Except.error ("Tool call \x27" ++ n
              ++ "\x27 failed assertions:\n"
              ++ String.intercalate "\n"
                ((as.filter (fun a =>
                    !(a.check
                        (ToolCaller.call history n args d false
                          resp).1).passed)).map
                  (fun a => "- " ++ a.description ++ ": "
                    ++ (a.check
                          (ToolCaller.call history n args d false
                            resp).1).message))))
      ∧ (ToolCaller.call_and_assert history n args d (some as) resp).2
          = (ToolCaller.call history n args d false resp).2 := by
  intro history n args d as resp
  refine ⟨⟨?_, ?_⟩, ?_, rfl⟩
  · intro h
    rw [← assertionFailureLines_nil_iff]
    cases hL : assertionFailureLines as
        (ToolCaller.call history n args d false resp).1 with
    | nil => rfl
    | cons l ls =>
      simp [ToolCaller.call_and_assert, hL] at h
  · intro h
    have hnil := (assertionFailureLines_nil_iff as
      (ToolCaller.call history n args d false resp).1).2 h
    simp [ToolCaller.call_and_assert, hnil]
  · rintro ⟨a, ha, hfail⟩
    have hne : assertionFailureLines as
        (ToolCaller.call history n args d false resp).1 ≠ [] := by
      intro hnil
      have := (assertionFailureLines_nil_iff as
        (ToolCaller.call history n args d false resp).1).1 hnil a ha
      rw [hfail] at this
      exact Bool.false_ne_true this
    rw [← assertionFailureLines_eq]
    cases hL : assertionFailureLines as
        (ToolCaller.call history n args d false resp).1 with
    | nil => exact absurd hL hne
    | cons l ls => simp [ToolCaller.call_and_assert, hL]

/-- An assertion fixture that rejects every outcome. -/
def alwaysFailAssertion : BaseAssertion :=
  { description := "always fails",
    check := fun _ => { passed := false, message := "nope" } }

/-- Witness for claim C5 at a concrete input: one failing assertion yields
the aggregated failure text. -/
theorem C5_witness :
    (ToolCaller.call_and_assert [] "t" [] 0 (some [alwaysFailAssertion])
      (.ok ⟨[], false⟩)).1
      = Except.error
          "Tool call \x27t\x27 failed assertions:\n- always fails: nope" := by
  have h := (C5_call_and_assert_aggregates [] "t" [] 0 [alwaysFailAssertion]
    (.ok ⟨[], false⟩)).2.1
    ⟨alwaysFailAssertion, List.mem_singleton.mpr rfl, rfl⟩
  exact h.trans (by rfl)

/-- The AND composite passes exactly when every inner result passes. -/
theorem composite_and_passed (as : List BaseAssertion) (r : ToolCallResult) :
    (CompositeAssertion.check as "and" r).passed
      = (as.map (fun a => a.check r)).all (fun x => x.passed) := by
  cases h : (as.map (fun a => a.check r)).all (fun x => x.passed) <;>
    simp [CompositeAssertion.check, h]

/-- The OR composite passes exactly when some inner result passes. -/
theorem composite_or_passed (as : List BaseAssertion) (r : ToolCallResult) :
    (CompositeAssertion.check as "or" r).passed
      = (as.map (fun a => a.check r)).any (fun x => x.passed) := by
  cases h : (as.map (fun a => a.check r)).any (fun x => x.passed) <;>
    simp [CompositeAssertion.check, h]

/-- Claim C6 (amended): the AND composite passes iff all inner checks pass
and its failure message lists every failing inner check's failure message
(one line per failing result, not its description); the OR composite passes
iff at least one inner check passes and its failure message lists all inner
checks' failure messages. -/
theorem C6_composite_semantics :
    ∀ (as : List BaseAssertion) (r : ToolCallResult),
      ((CompositeAssertion.check as "and" r).passed = true
        ↔ ∀ a ∈ as, (a.check r).passed = true)
      ∧ ((CompositeAssertion.check as "and" r).passed = false →
          (CompositeAssertion.check as "and" r).message
            = toString ((as.map (fun a => a.check r)).filter
                (fun x => !x.passed)).length
              ++ " assertion(s) failed:\n"
              ++ String.intercalate "\n"
                (((as.map (fun a => a.check r)).filter
                    (fun x => !x.passed)).map (fun x => "- " ++ x.message)))
      ∧ ((CompositeAssertion.check as "or" r).passed = true
        ↔ ∃ a ∈ as, (a.check r).passed = true)
      ∧ ((CompositeAssertion.check as "or" r).passed = false →
          (CompositeAssertion.check as "or" r).message
            = "None of " ++ toString as.length ++ " assertions passed:\n"
              ++ String.intercalate "\n"
                ((as.map (fun a => a.check r)).map
                  (fun x => "- " ++ x.message))) := by
  intro as r
  refine ⟨?_, ?_, ?_, ?_⟩
  · rw [composite_and_passed, List.all_eq_true]
    simp
  · intro h
    rw [composite_and_passed] at h
    simp [CompositeAssertion.check, h]
  · rw [composite_or_passed, List.any_eq_true]
    simp
  · intro h
    rw [composite_or_passed] at h
    simp [CompositeAssertion.check, h]

/-- Claim C6 is false as stated at a concrete input: against an outcome
whose success flag is false, the AND composite over the single inner check
`SuccessAssertion` fails, that inner check fails, and the composite's failure
message does not contain the failing inner check's description
"Tool call succeeds" anywhere (it lists the check's failure message
"Tool call should succeed" instead). -/
theorem C6_counterexample :
    (SuccessAssertion.check sampleFailedOutcome).passed = false
    ∧ (CompositeAssertion.check [SuccessAssertion] "and"
        sampleFailedOutcome).passed = false
    ∧ strContains
        (CompositeAssertion.check [SuccessAssertion] "and"
          sampleFailedOutcome).message
        SuccessAssertion.description = false
    ∧ (CompositeAssertion.check [SuccessAssertion] "and"
        sampleFailedOutcome).message
        = "1 assertion(s) failed:\n- Tool call should succeed" := by
  exact ⟨rfl, rfl, by decide, by decide⟩

/-- Witness for claim C6 at a concrete input: both failure-message equations
of the amended statement, instantiated at a failing inner check. -/
theorem C6_witness :
    (CompositeAssertion.check [SuccessAssertion] "and"
        sampleFailedOutcome).message
      = "1 assertion(s) failed:\n- Tool call should succeed"
    ∧ (CompositeAssertion.check [SuccessAssertion] "or"
        sampleFailedOutcome).message
      = "None of 1 assertions passed:\n- Tool call should succeed" := by
  have h := C6_composite_semantics [SuccessAssertion] sampleFailedOutcome
  exact ⟨(h.2.1 rfl).trans (by decide), (h.2.2.2 rfl).trans (by decide)⟩

/-- Claim C7: the error assertion passes exactly when the outcome failed and,
when both the compiled pattern and the error message are present (truthy),
the pattern search succeeds; when no error message is present the pattern
imposes no further requirement. The regex engine is abstract; the assertion
always invokes it with the ignore-case flag it was compiled with. -/
theorem C7_error_assertion_semantics :
    ∀ (search : Bool → String → String → Bool) (pat : Option String)
      (r : ToolCallResult),
      ((ErrorAssertion.checkWith search pat r).passed
        = (!r.success
            && (!(pyTruthy pat && pyTruthy r.error_message)
              || search true (pat.getD "") (r.error_message.getD ""))))
      ∧ (pyTruthy r.error_message = false →
          (ErrorAssertion.checkWith search pat r).passed = !r.success) := by
  intro search pat r
  constructor
  · cases hs : r.success with
    | true => simp [ErrorAssertion.checkWith, hs]
    | false =>
      cases hp : pyTruthy pat && pyTruthy r.error_message with
      | false => simp [ErrorAssertion.checkWith, hs, hp]
      | true =>
        cases hm : search true (pat.getD "") (r.error_message.getD "") <;>
          simp [ErrorAssertion.checkWith, hs, hp, hm]
  · intro hm
    cases hs : r.success <;>
      simp [ErrorAssertion.checkWith, hs, hm]

/-- A failed outcome with no error message recorded. -/
def sampleSilentFailure : ToolCallResult :=
  { sampleFailedOutcome with error_message := none }

/-- Witness for claim C7 at a concrete input: with no error message present,
a pattern that never matches imposes nothing and the assertion passes on the
failed outcome. -/
theorem C7_witness :
    pyTruthy sampleSilentFailure.error_message = false
    ∧ (ErrorAssertion.checkWith (fun _ _ _ => false) (some "pat")
        sampleSilentFailure).passed = true := by
  refine ⟨rfl, ?_⟩
  have h := (C7_error_assertion_semantics (fun _ _ _ => false) (some "pat")
    sampleSilentFailure).2 rfl
  exact h.trans rfl

/-- Registering a session under one name leaves the lookup of every other
name unchanged. -/
theorem lookup_setSession_ne (st : ManagerSessions) (n m : String)
    (s : ManagedSession) (h : m ≠ n) :
    List.lookup m (setSession st n s) = List.lookup m st := by
  have hmn : (m == n) = false := beq_eq_false_iff_ne.mpr h
  induction st with
  | nil => simp [setSession, List.lookup, hmn]
  | cons p t ih =>
    cases p with
    | mk k v =>
      by_cases hk : k = n
      · subst hk
        simp [setSession, List.lookup, hmn]
      · have hkn : (k == n) = false := beq_eq_false_iff_ne.mpr hk
        cases hmk : (m == k) <;>
          simp [setSession, List.lookup, hkn, hmk, ih]

/-- Registering a session under one name leaves the connectedness check of
every other name unchanged. -/
theorem alreadyConnected_setSession_ne (st : ManagerSessions) (n m : String)
    (s : ManagedSession) (h : m ≠ n) :
    alreadyConnected (setSession st n s) m = alreadyConnected st m := by
  unfold alreadyConnected
  rw [lookup_setSession_ne st n m s h]

/-- Under distinct configured names none of which is already connected, the
gather phase records exactly one `(name, error)` pair per failing connect, in
configuration order. -/
theorem gatherStart_errors (sessions : ManagerSessions)
    (jobs : List (String × Except String Unit))
    (hnodup : (jobs.map Prod.fst).Nodup)
    (hfresh : ∀ p ∈ jobs, alreadyConnected sessions p.1 = false) :
    (gatherStart sessions jobs).2
      = jobs.filterMap (fun p =>
          match p.2 with
          | .ok _ => none
          | .error e => some (p.1, e)) := by
  induction jobs generalizing sessions with
  | nil => rfl
  | cons j rest ih =>
    cases j with
    | mk name outcome =>
      have hhead : alreadyConnected sessions name = false :=
        hfresh (name, outcome) (List.mem_cons_self _ _)
      have hnodup' : (name :: rest.map Prod.fst).Nodup := by
        simpa only [List.map_cons] using hnodup
      have hnodup2 := List.nodup_cons.mp hnodup'
      have hne : ∀ p ∈ rest, p.1 ≠ name := by
        intro p hp heq
        apply hnodup2.1
        rw [← heq]
        exact List.mem_map_of_mem Prod.fst hp
      cases outcome with
      | ok u =>
        have hfresh2 : ∀ p ∈ rest,
            alreadyConnected (setSession sessions name
              { connected := true }) p.1 = false := by
          intro p hp
          rw [alreadyConnected_setSession_ne _ _ _ _ (hne p hp)]
          exact hfresh p (List.mem_cons_of_mem _ hp)
        simp only [gatherStart, startServer, hhead, Bool.false_eq_true,
          if_false, List.filterMap_cons]
        exact ih _ hnodup2.2 hfresh2
      | error e =>
        simp only [gatherStart, startServer, hhead, Bool.false_eq_true,
          if_false, List.filterMap_cons]
        exact congrArg _ (ih sessions hnodup2.2
          (fun p hp => hfresh p (List.mem_cons_of_mem _ hp)))

/-- Folding `stop_server` over a superset of the registered names empties the
session dict. -/
theorem foldl_stopServer_nil (l : List String) :
    ∀ st : ManagerSessions, (∀ p ∈ st, p.1 ∈ l) →
      l.foldl stopServer st = [] := by
  induction l with
  | nil =>
    intro st h
    cases st with
    | nil => rfl
    | cons p t => exact absurd (h p (List.mem_cons_self _ _)) (List.not_mem_nil _)
  | cons n ns ih =>
    intro st h
    simp only [List.foldl_cons]
    apply ih
    intro p hp
    simp only [stopServer, List.mem_filter] at hp
    have hne : p.1 ≠ n := by simpa using hp.2
    rcases List.mem_cons.mp (h p hp.1) with h1 | h2
    · exact absurd h1 hne
    · exact h2

/-- `stop_all_servers` leaves no registered session. -/
theorem stopAllServers_nil (st : ManagerSessions) : stopAllServers st = [] := by
  apply foldl_stopServer_nil
  intro p hp
  exact List.mem_map_of_mem _ hp

/-- Claim C2: with distinct configured server names, none already connected,
and at least one failing connect, a parallel `start_all_servers` raises a
single aggregated error with one `name: error` line per failed server, and
afterwards the session dict is empty, so `connected_servers` is empty: every
server that did connect has been torn down and unregistered. -/
theorem C2_parallel_rollback
    (sessions : ManagerSessions) (jobs : List (String × Except String Unit))
    (hnodup : (jobs.map Prod.fst).Nodup)
    (hfresh : ∀ p ∈ jobs, alreadyConnected sessions p.1 = false)
    (hfail : ∃ p ∈ jobs, ∃ e, p.2 = Except.error e) :
    (startAllServers sessions jobs true).1
      = Except.error ("Failed to start "
          ++ toString (jobs.filterMap (fun p =>
              match p.2 with
              | .ok _ => none
              | .error e => some (p.1, e))).length
          ++ " server(s):\n"
          ++ String.intercalate "\n"
            ((jobs.filterMap (fun p =>
                match p.2 with
                | .ok _ => none
                | .error e => some (p.1, e))).map
              (fun p => p.1 ++ ": " ++ p.2)))
    ∧ (startAllServers sessions jobs true).2 = []
    ∧ connected_servers (startAllServers sessions jobs true).2 = [] := by
  obtain ⟨p0, hp0, e0, he0⟩ := hfail
  have hjobs : jobs.isEmpty = false := by
    cases jobs with
    | nil => exact absurd hp0 (List.not_mem_nil _)
    | cons _ _ => rfl
  have herrs := gatherStart_errors sessions jobs hnodup hfresh
  have herrne : (gatherStart sessions jobs).2 ≠ [] := by
    rw [herrs]
    intro hnil
    have hmem : (p0.1, e0) ∈ jobs.filterMap (fun p =>
        match p.2 with
        | .ok _ => none
        | .error e => some (p.1, e)) :=
      List.mem_filterMap.mpr ⟨p0, hp0, by rw [he0]⟩
    rw [hnil] at hmem
    exact List.not_mem_nil _ hmem
  have hge : (gatherStart sessions jobs).2.isEmpty = false := by
    cases hL : (gatherStart sessions jobs).2 with
    | nil => exact absurd hL herrne
    | cons _ _ => rfl
  refine ⟨?_, ?_, ?_⟩
  · simp [startAllServers, hjobs, startServersParallel, hge]
    rw [herrs]
  · simp [startAllServers, hjobs, startServersParallel, hge,
      stopAllServers_nil]
  · simp [startAllServers, hjobs, startServersParallel, hge,
      stopAllServers_nil, connected_servers]

/-- A three-server configuration whose middle server fails to connect. -/
def sampleJobs : List (String × Except String Unit) :=
  [("alpha", .ok ()), ("beta", .error "connect refused"), ("gamma", .ok ())]

/-- Witness for claim C2 at a concrete input: three servers, the middle one
failing, starting from a fresh manager. -/
theorem C2_witness :
    (startAllServers [] sampleJobs true).1
      = Except.error "Failed to start 1 server(s):\nbeta: connect refused"
    ∧ (startAllServers [] sampleJobs true).2 = []
    ∧ connected_servers (startAllServers [] sampleJobs true).2 = [] := by
  have h := C2_parallel_rollback [] sampleJobs (by decide) (by decide)
    ⟨("beta", Except.error "connect refused"),
      List.mem_cons_of_mem _ (List.mem_cons_self _ _), "connect refused", rfl⟩
  exact ⟨h.1.trans (congrArg Except.error (by decide)), h.2.1, h.2.2⟩

/-- Claim C9: `disconnect` is idempotent: once it returns the state is
disconnected, whatever the shutdown outcome (normal or timed out), and a
second `disconnect` is a no-op. -/
theorem C9_disconnect_idempotent :
    ∀ (s : MCPClientSession) (o o2 : ShutdownOutcome),
      (s.disconnect o).is_connected = false
      ∧ (s.disconnect o).disconnect o2 = s.disconnect o := by
  intro s o o2
  cases s with
  | mk sess stack =>
    cases sess <;> cases o <;> cases o2 <;>
      simp [MCPClientSession.disconnect, MCPClientSession.is_connected,
        MCPClientSession.cleanup]
